import Mathlib

/-!
Verification of the Matrix "digital rain" animation core (src/matrix.c,
src/matrix.h, src/charset.h).

This file is a shallow embedding of the C code.  Conventions:
* C `unsigned int` RNG state is a `Nat`; `rng_next` takes the LCG step modulo
  2^32 and masks with `0x7FFFFFFF`, i.e. reduces modulo 2^31, exactly as
  `(*state * 1664525 + 1013904223) & 0x7FFFFFFF` does.
* C `float` alpha values and probability rolls are embedded as exact rationals
  (`FADE_RATE = 0.04` is `4/100`); none of the verified claims depends on
  float rounding, only on the ordering of these small decimal constants.
* C `int` is `Int`; where the C code divides ints we use `Int.tdiv`
  (truncation toward zero, the C semantics); casts to `size_t` reduce modulo
  2^64.
* The per-column parallel arrays (`drops[i]`, `frozen[i]`, ...) are embedded
  as a list of per-column records (`Col`), keeping the source field names.
  `frozen_trail_counts[i]` is the length of the `frozen_trails` list.
* `realloc` success/failure is environment nondeterminism; the update step
  takes a boolean `alloc` oracle that decides whether the (single, per tick)
  frozen-trail `realloc` in the freeze event succeeds.
* Fallible construction (`Matrix_init` returning NULL) is `Option`.
-/

namespace MatrixRain

/- Rational arithmetic must evaluate inside `decide` proofs on concrete
states; Batteries marks these operations irreducible for elaboration
performance, which blocks that evaluation. -/
attribute [local semireducible] Rat.sub Rat.add Rat.mul Rat.inv

/-- 2^31, the LCG modulus forced by the `& 0x7FFFFFFF` mask. -/
def lcgMod : Nat := 2147483648

/-- `rng_next` (matrix.c:21-28): `*state = (*state * 1664525 + 1013904223) & 0x7FFFFFFF`.
The C multiplication wraps modulo 2^32, and masking with `0x7FFFFFFF` then
reduces modulo 2^31; since 2^31 divides 2^32 this is one reduction mod 2^31. -/
def rng_next (s : Nat) : Nat := (s * 1664525 + 1013904223) % lcgMod

/-- `rng_int_range` (matrix.c:33-43): random `int` in `[at_least, less_than)`,
returning `at_least` when the range is non-positive and consuming one RNG step
otherwise.  Returns the value together with the new RNG state. -/
def rng_int_range (s : Nat) (at_least less_than : Int) : Int × Nat :=
  if less_than - at_least ≤ 0 then (at_least, s)
  else
    let s' := rng_next s
    (at_least + ((s' % (less_than - at_least).toNat : Nat) : Int), s')

/-- `rng_float` (matrix.c:47-52): `(rng_next(state) % 10000) / 10000.0f`,
embedded as an exact rational in `[0, 1)`. -/
def rng_float (s : Nat) : ℚ × Nat :=
  let s' := rng_next s
  (((s' % 10000 : Nat) : ℚ) / 10000, s')

/-- The `letters` array of charset.h (80 glyphs: digits 0-1, Cyrillic А-Я,
Katakana), code points as naturals, without the terminating 0. -/
def letters : List Nat :=
  [0x0030, 0x0031,
   0x0410, 0x0411, 0x0412, 0x0413, 0x0414, 0x0415, 0x0416, 0x0417, 0x0418, 0x0419,
   0x041A, 0x041B, 0x041C, 0x041D, 0x041E, 0x041F, 0x0420, 0x0421, 0x0422, 0x0423,
   0x0424, 0x0425, 0x0426, 0x0427, 0x0428, 0x0429, 0x042A, 0x042B, 0x042C, 0x042D,
   0x042E, 0x042F,
   0x30A2, 0x30A4, 0x30A6, 0x30A8, 0x30AA, 0x30AB, 0x30AD, 0x30AF, 0x30B1, 0x30B3,
   0x30B5, 0x30B7, 0x30B9, 0x30BB, 0x30BD, 0x30BF, 0x30C1, 0x30C3, 0x30C6, 0x30C8,
   0x30CA, 0x30CB, 0x30CC, 0x30CD, 0x30CE, 0x30CF, 0x30D2, 0x30D5, 0x30D8, 0x30DB,
   0x30DE, 0x30DF, 0x30E0, 0x30E1, 0x30E2, 0x30E4, 0x30E6, 0x30E8,
   0x30E9, 0x30EA, 0x30EB, 0x30EC, 0x30ED, 0x30EF, 0x30F2, 0x30F3]

/-- `random_char` (matrix.c:56-69): picks a uniform index below the size of
`letters` (80) and returns that glyph; defensively returns `L'0'` if the
palette were empty. -/
def random_char (s : Nat) : Nat × Nat :=
  if letters.length ≤ 0 then (0x30, s)
  else
    let i := rng_int_range s 0 (letters.length : Int)
    (letters.getD i.1.toNat 0, i.2)

/-- `FADE_RATE` (matrix.c:12): 0.04 per frame, as an exact rational. -/
def FADE_RATE : ℚ := 4 / 100

/-- `FrozenTrail` (matrix.h:15-32).  The C struct holds a 64-`WCHAR` buffer of
which only the first `trail_lengths[i]` entries are ever written (by the
`memcpy` in the freeze event) or read (by the renderer); `characters` embeds
exactly that defined prefix. -/
structure FrozenTrail where
  characters : List Nat
  y_pos : Int
  alpha : ℚ
  deriving DecidableEq, Repr, Inhabited

/-- One column's slice of the parallel per-column arrays of `Matrix`
(matrix.h:72-109), keeping the source array names.
`frozen_trail_counts[i]` is `frozen_trails.length`. -/
structure Col where
  drops : Int
  frozen : Bool
  trail_chars : List Nat
  trail_lengths : Nat
  trail_alphas : ℚ
  frozen_trails : List FrozenTrail
  frozen_trail_capacities : Nat
  deriving DecidableEq, Repr, Inhabited

/-- The engine state (matrix.h:39-120).  The window/font handles are host
resources with no bearing on the animation state machine and are omitted. -/
structure Matrix where
  width : Int
  height : Int
  char_width : Int
  cols : List Col
  rng_state : Nat
  last_update : Int
  deriving DecidableEq, Repr, Inhabited

/-- Inactive-column branch (matrix.c:262-270): with probability 1% reactivate
with a fresh negative position in `(-h, 0]`, fresh length, `alpha = 1`. -/
def reactivate (h : Int) (c : Col) (s : Nat) : Col × Nat :=
  let p := rng_float s
  if p.1 < 1 / 100 then
    let d := rng_int_range p.2 0 h
    let l := rng_int_range d.2 30 41
    ({ c with drops := -d.1, trail_lengths := l.1.toNat, trail_alphas := 1 }, l.2)
  else (c, p.2)

/-- Frozen-column check (matrix.c:277-282): when no frozen trails remain,
unfreeze and restart with fresh position, length and `alpha = 1`. -/
def unfreeze_check (h : Int) (c : Col) (s : Nat) : Col × Nat :=
  if c.frozen_trails.length = 0 then
    let d := rng_int_range s 0 h
    let l := rng_int_range d.2 30 41
    ({ c with frozen := false, drops := -d.1, trail_lengths := l.1.toNat,
              trail_alphas := 1 }, l.2)
  else (c, s)

/-- Fade trigger (matrix.c:286-288): on-screen, fully opaque trails start
fading with probability 1% (the RNG roll happens only when the first two
short-circuit conditions hold, as in the C `&&`). -/
def fade_start (c : Col) (s : Nat) : Col × Nat :=
  if 0 < c.drops ∧ 1 ≤ c.trail_alphas then
    let p := rng_float s
    if p.1 < 1 / 100 then ({ c with trail_alphas := c.trail_alphas - FADE_RATE }, p.2)
    else (c, p.2)
  else (c, s)

/-- Fade progression (matrix.c:290-299): a fading trail loses `FADE_RATE`;
when the decremented alpha is ≤ 0 the trail restarts (fresh position from
`-rng_int_range(0, h)`, fresh length, `alpha = 1`). -/
def fade_continue (h : Int) (c : Col) (s : Nat) : Col × Nat :=
  if c.trail_alphas < 1 then
    let a := c.trail_alphas - FADE_RATE
    if a ≤ 0 then
      let d := rng_int_range s 0 h
      let l := rng_int_range d.2 30 41
      ({ c with drops := -d.1, trail_lengths := l.1.toNat, trail_alphas := 1 }, l.2)
    else ({ c with trail_alphas := a }, s)
  else (c, s)

/-- The character shift of matrix.c:305-307: `chars[j] = chars[j-1]` for `j`
from `len-1` down to `1`; entries at index ≥ `len` are untouched.  On a
40-slot buffer with `1 ≤ len ≤ 40` this is exactly
`[old 0, old 0, old 1, ..., old (len-2)] ++ suffix`. -/
def shift_chars (l : List Nat) (len : Nat) : List Nat :=
  l.take 1 ++ l.take (len - 1) ++ l.drop len

/-- Trail advance (matrix.c:302-312): while `alpha > 0`, shift the characters,
write a fresh random glyph at index 0 and increment the position. -/
def advance (c : Col) (s : Nat) : Col × Nat :=
  if 0 < c.trail_alphas then
    let ch := random_char s
    ({ c with trail_chars := (shift_chars c.trail_chars c.trail_lengths).set 0 ch.1,
              drops := c.drops + 1 }, ch.2)
  else (c, s)

/-- The freeze capture (matrix.c:330-337): append a snapshot of the first
`trail_lengths` characters at pixel `y_pos = drops * FONT_HEIGHT` (20) with
`alpha = 1`, then reset the active position to `-rng_int_range(0, h)` and
`alpha` to 1 (the trail length is left unchanged). -/
def capture (h : Int) (c : Col) (s : Nat) : Col × Nat :=
  let entry : FrozenTrail :=
    ⟨c.trail_chars.take c.trail_lengths, c.drops * 20, 1⟩
  let d := rng_int_range s 0 h
  ({ c with frozen_trails := c.frozen_trails ++ [entry], drops := -d.1,
            trail_alphas := 1 }, d.2)

/-- Freeze event (matrix.c:314-338): off-screen (`drops > h`), fully opaque
trails freeze with probability 10% (`rng_float > 0.9`).  The C code sets
`frozen[i] = TRUE` first, then grows the frozen-trail storage if
`counts ≥ capacities` (capacity 0 → 4, else doubled); if that `realloc` fails
it `continue`s, skipping the capture AND the flicker/drain passes for this
column this tick.  The returned flag records that `continue`. -/
def freeze_check (h : Int) (alloc : Bool) (c : Col) (s : Nat) : (Col × Nat) × Bool :=
  if h < c.drops ∧ 1 ≤ c.trail_alphas then
    let p := rng_float s
    if 9 / 10 < p.1 then
      let c1 := { c with frozen := true }
      if c1.frozen_trail_capacities ≤ c1.frozen_trails.length then
        if alloc then
          let cap := if c1.frozen_trail_capacities = 0 then 4
                     else c1.frozen_trail_capacities * 2
          (capture h { c1 with frozen_trail_capacities := cap } p.2, false)
        else ((c1, p.2), true)
      else (capture h c1 p.2, false)
    else ((c, p.2), false)
  else ((c, s), false)

/-- Flicker mutation (matrix.c:343-346): with probability 10%, redraw one
non-leading character at index `rng_int_range(1, trail_lengths)`. -/
def flicker (c : Col) (s : Nat) : Col × Nat :=
  let p := rng_float s
  if p.1 < 1 / 10 then
    let idx := rng_int_range p.2 1 (c.trail_lengths : Int)
    let ch := random_char idx.2
    ({ c with trail_chars := c.trail_chars.set idx.1.toNat ch.1 }, ch.2)
  else (c, p.2)

/-- One FrozenTrail with its alpha lowered by `FADE_RATE` (matrix.c:351). -/
def fade_entry (e : FrozenTrail) : FrozenTrail := { e with alpha := e.alpha - FADE_RATE }

/-- The drain loop of matrix.c:350-358 in accumulator form: `acc` holds the
already-processed (kept) entries, `rest` the unprocessed suffix.  Each entry
loses `FADE_RATE`; an entry whose new alpha is ≤ 0 is removed by overwriting
it with the (not yet processed) last element and shrinking the count, without
advancing the index — exactly the C swap-with-last removal. -/
def drainAux (fuel : Nat) (acc : List FrozenTrail) (rest : List FrozenTrail) :
    List FrozenTrail :=
  match fuel, rest with
  | _, [] => acc
  | 0, _ => acc
  | fuel + 1, e :: rest' =>
    if (fade_entry e).alpha ≤ 0 then
      match rest' with
      | [] => acc
      | y :: ys => drainAux fuel acc ((y :: ys).getLastD e :: (y :: ys).dropLast)
    else drainAux fuel (acc ++ [fade_entry e]) rest'

/-- The frozen-trail drain pass (matrix.c:350-358) applied to a column's list. -/
def drain (l : List FrozenTrail) : List FrozenTrail := drainAux l.length [] l

/-- A column after the drain pass. -/
def drain_col (c : Col) : Col := { c with frozen_trails := drain c.frozen_trails }

/-- The per-column body of the `Matrix_update` loop (matrix.c:259-359),
threading the RNG state; `h` is `screen_height_in_chars`, `alloc` tells
whether the freeze-event `realloc` (if reached) succeeds. -/
def updateColumn (h : Int) (alloc : Bool) (c : Col) (s : Nat) : Col × Nat :=
  if c.drops ≤ -10000 then reactivate h c s
  else if c.frozen then
    let u := unfreeze_check h c s
    let f := flicker u.1 u.2
    (drain_col f.1, f.2)
  else
    let a := fade_start c s
    let b := fade_continue h a.1 a.2
    let d := advance b.1 b.2
    let z := freeze_check h alloc d.1 d.2
    if z.2 then z.1
    else
      let f := flicker z.1.1 z.1.2
      (drain_col f.1, f.2)

/-- The column loop of `Matrix_update`, left to right, threading the RNG. -/
def updateCols (h : Int) (alloc : Bool) : List Col → Nat → List Col × Nat
  | [], s => ([], s)
  | c :: cs, s =>
    let r := updateColumn h alloc c s
    let rest := updateCols h alloc cs r.2
    (r.1 :: rest.1, rest.2)

/-- `MATRIX_SPEED_MS` (matrix.c:11). -/
def MATRIX_SPEED_MS : Int := 70

/-- `FONT_HEIGHT` (matrix.c:10). -/
def FONT_HEIGHT : Int := 20

/-- `Matrix_update` (matrix.c:244-360): a no-op unless at least
`MATRIX_SPEED_MS` ms have elapsed; otherwise records `now` and updates every
column with `screen_height_in_chars = height / FONT_HEIGHT`. -/
def Matrix_update (now : Int) (alloc : Bool) (m : Matrix) : Matrix :=
  if now - m.last_update < MATRIX_SPEED_MS then m
  else
    let h := m.height.tdiv FONT_HEIGHT
    let r := updateCols h alloc m.cols m.rng_state
    { m with cols := r.1, rng_state := r.2, last_update := now }

/-- A sequence of `Matrix_update` calls, each with its clock value and its
allocation-oracle outcome. -/
def run_updates (m : Matrix) : List (Int × Bool) → Matrix
  | [] => m
  | t :: ts => run_updates (Matrix_update t.1 t.2 m) ts

/-- The C cast `(size_t)x`: reduction modulo 2^64. -/
def int_to_size_t (x : Int) : Nat := (x % 18446744073709551616).toNat

/-- Column-count derivation of `Matrix_init` (matrix.c:125-128):
`char_width > 0 ? (size_t)(width / char_width) : 0`, capped at 500. -/
def compute_columns (width char_width : Int) : Nat :=
  let c := if 0 < char_width then int_to_size_t (width.tdiv char_width) else 0
  min c 500

/-- The character fill of matrix.c:192-194: `n` successive `random_char`s. -/
def gen_chars : Nat → Nat → List Nat × Nat
  | 0, s => ([], s)
  | n + 1, s =>
    let c := random_char s
    let rest := gen_chars n c.2
    (c.1 :: rest.1, rest.2)

/-- Per-column initialization (matrix.c:179-209): random length in `[30, 40]`,
`alpha = 1`, the first `len` buffer slots filled with random glyphs (the
calloc'd remainder is 0), no frozen trails, and with probability 95% an active
start `-rng_int_range(0, height/FONT_HEIGHT*2)`, else the `-10000` sentinel. -/
def init_col (height : Int) (s : Nat) : Col × Nat :=
  let l := rng_int_range s 30 41
  let len := l.1.toNat
  let g := gen_chars len l.2
  let chars := g.1 ++ List.replicate (40 - len) 0
  let p := rng_float g.2
  if p.1 < 95 / 100 then
    let d := rng_int_range p.2 0 ((height.tdiv FONT_HEIGHT) * 2)
    (⟨-d.1, false, chars, len, 1, [], 0⟩, d.2)
  else
    (⟨-10000, false, chars, len, 1, [], 0⟩, p.2)

/-- The column-initialization loop of `Matrix_init`. -/
def init_cols (height : Int) : Nat → Nat → List Col × Nat
  | 0, s => ([], s)
  | n + 1, s =>
    let c := init_col height s
    let rest := init_cols height n c.2
    (c.1 :: rest.1, rest.2)

/-- `Matrix_init` (matrix.c:74-212) restricted to the animation state: fails
(returns NULL) when the computed column count is zero (in particular when the
host-measured `char_width` is non-positive); otherwise builds all columns.
`seed` stands for `GetTickCount() ^ 0xDEADBEEF`, `t0` for `GetTickCount64()`;
host allocation/font failures are the other NULL paths and are not modeled. -/
def Matrix_init (width height char_width : Int) (seed : Nat) (t0 : Int) :
    Option Matrix :=
  let columns := compute_columns width char_width
  if columns = 0 then none
  else
    let cs := init_cols height columns seed
    some ⟨width, height, char_width, cs.1, cs.2, t0⟩

/-- Gradient brightness of matrix.c:410-411 and 437-438 (the same expression
for frozen and active trails): `255 - k * (255 / len)` with integer division,
clamped below at 50.  (For the lengths 30-40 that actually occur,
`k * (255 / len) ≤ 255`, so the C unsigned subtraction never wraps and agrees
with this `Int` subtraction.) -/
def gradient_brightness (len k : Nat) : Int :=
  max (255 - (k : Int) * ((255 : Nat) / len : Nat)) 50

/-! ## Basic facts about the RNG ranges -/

lemma rng_int_range_bounds (s : Nat) (lo hi : Int) (h : lo < hi) :
    lo ≤ (rng_int_range s lo hi).1 ∧ (rng_int_range s lo hi).1 < hi := by
  have hpos : ¬ hi - lo ≤ 0 := by omega
  have hm := Nat.mod_lt (rng_next s) (y := (hi - lo).toNat) (by omega)
  simp only [rng_int_range, hpos, if_false]
  omega

lemma rng_int_range_len (s : Nat) :
    30 ≤ ((rng_int_range s 30 41).1).toNat ∧ ((rng_int_range s 30 41).1).toNat ≤ 40 := by
  have := rng_int_range_bounds s 30 41 (by omega)
  omega

lemma rng_int_range_pos (s : Nat) (h : Int) :
    0 ≤ (rng_int_range s 0 h).1 ∧ (0 < h → (rng_int_range s 0 h).1 < h) := by
  by_cases hh : 0 < h
  · have := rng_int_range_bounds s 0 h hh
    exact ⟨this.1, fun _ => this.2⟩
  · have hle : h - 0 ≤ 0 := by omega
    rw [rng_int_range, if_pos hle]
    exact ⟨le_refl 0, fun hc => absurd hc hh⟩

/-! ## Field-preservation facts for the per-column steps -/

lemma reactivate_pres (h : Int) (c : Col) (s : Nat) :
    (reactivate h c s).1.frozen = c.frozen ∧
    (reactivate h c s).1.trail_chars = c.trail_chars ∧
    (reactivate h c s).1.frozen_trails = c.frozen_trails ∧
    (reactivate h c s).1.frozen_trail_capacities = c.frozen_trail_capacities := by
  simp only [reactivate]
  split <;> simp

lemma reactivate_len (h : Int) (c : Col) (s : Nat) :
    (reactivate h c s).1.trail_lengths = c.trail_lengths ∨
    (30 ≤ (reactivate h c s).1.trail_lengths ∧ (reactivate h c s).1.trail_lengths ≤ 40) := by
  simp only [reactivate]
  split
  · exact Or.inr (rng_int_range_len _)
  · exact Or.inl rfl

lemma unfreeze_check_pres (h : Int) (c : Col) (s : Nat) :
    (unfreeze_check h c s).1.trail_chars = c.trail_chars ∧
    (unfreeze_check h c s).1.frozen_trails = c.frozen_trails ∧
    (unfreeze_check h c s).1.frozen_trail_capacities = c.frozen_trail_capacities := by
  simp only [unfreeze_check]
  split <;> simp

lemma unfreeze_check_len (h : Int) (c : Col) (s : Nat) :
    (unfreeze_check h c s).1.trail_lengths = c.trail_lengths ∨
    (30 ≤ (unfreeze_check h c s).1.trail_lengths ∧ (unfreeze_check h c s).1.trail_lengths ≤ 40) := by
  simp only [unfreeze_check]
  split
  · exact Or.inr (rng_int_range_len _)
  · exact Or.inl rfl

lemma unfreeze_check_ne (h : Int) (c : Col) (s : Nat) (hne : c.frozen_trails ≠ []) :
    unfreeze_check h c s = (c, s) := by
  have : ¬ c.frozen_trails.length = 0 := by simpa [List.length_eq_zero] using hne
  simp [unfreeze_check, this]

lemma fade_start_pres (c : Col) (s : Nat) :
    (fade_start c s).1.drops = c.drops ∧
    (fade_start c s).1.frozen = c.frozen ∧
    (fade_start c s).1.trail_chars = c.trail_chars ∧
    (fade_start c s).1.trail_lengths = c.trail_lengths ∧
    (fade_start c s).1.frozen_trails = c.frozen_trails ∧
    (fade_start c s).1.frozen_trail_capacities = c.frozen_trail_capacities := by
  simp only [fade_start]
  split <;> [skip; simp]
  split <;> simp

lemma fade_continue_pres (h : Int) (c : Col) (s : Nat) :
    (fade_continue h c s).1.frozen = c.frozen ∧
    (fade_continue h c s).1.trail_chars = c.trail_chars ∧
    (fade_continue h c s).1.frozen_trails = c.frozen_trails ∧
    (fade_continue h c s).1.frozen_trail_capacities = c.frozen_trail_capacities := by
  simp only [fade_continue]
  split <;> [skip; simp]
  split <;> simp

lemma fade_continue_len (h : Int) (c : Col) (s : Nat) :
    (fade_continue h c s).1.trail_lengths = c.trail_lengths ∨
    (30 ≤ (fade_continue h c s).1.trail_lengths ∧ (fade_continue h c s).1.trail_lengths ≤ 40) := by
  simp only [fade_continue]
  split <;> [skip; exact Or.inl rfl]
  split
  · exact Or.inr (rng_int_range_len _)
  · exact Or.inl rfl

lemma advance_pres (c : Col) (s : Nat) :
    (advance c s).1.frozen = c.frozen ∧
    (advance c s).1.trail_lengths = c.trail_lengths ∧
    (advance c s).1.trail_alphas = c.trail_alphas ∧
    (advance c s).1.frozen_trails = c.frozen_trails ∧
    (advance c s).1.frozen_trail_capacities = c.frozen_trail_capacities := by
  simp only [advance]
  split <;> simp

lemma flicker_pres (c : Col) (s : Nat) :
    (flicker c s).1.drops = c.drops ∧
    (flicker c s).1.frozen = c.frozen ∧
    (flicker c s).1.trail_lengths = c.trail_lengths ∧
    (flicker c s).1.trail_alphas = c.trail_alphas ∧
    (flicker c s).1.frozen_trails = c.frozen_trails ∧
    (flicker c s).1.frozen_trail_capacities = c.frozen_trail_capacities := by
  simp only [flicker]
  split <;> simp

lemma flicker_chars_len (c : Col) (s : Nat) :
    (flicker c s).1.trail_chars.length = c.trail_chars.length := by
  simp only [flicker]
  split <;> simp

lemma capture_pres (h : Int) (c : Col) (s : Nat) :
    (capture h c s).1.frozen = c.frozen ∧
    (capture h c s).1.trail_chars = c.trail_chars ∧
    (capture h c s).1.trail_lengths = c.trail_lengths ∧
    (capture h c s).1.frozen_trail_capacities = c.frozen_trail_capacities := by
  simp [capture]

lemma capture_ftrails (h : Int) (c : Col) (s : Nat) :
    (capture h c s).1.frozen_trails =
      c.frozen_trails ++ [⟨c.trail_chars.take c.trail_lengths, c.drops * 20, 1⟩] := by
  simp [capture]

lemma freeze_check_chars (h : Int) (alloc : Bool) (c : Col) (s : Nat) :
    (freeze_check h alloc c s).1.1.trail_chars = c.trail_chars ∧
    (freeze_check h alloc c s).1.1.trail_lengths = c.trail_lengths := by
  simp only [freeze_check]
  split <;> [skip; simp]
  split <;> [skip; simp]
  split
  · split
    · exact ⟨(capture_pres _ _ _).2.1, (capture_pres _ _ _).2.2.1⟩
    · simp
  · exact ⟨(capture_pres _ _ _).2.1, (capture_pres _ _ _).2.2.1⟩

lemma freeze_check_ftrails (h : Int) (alloc : Bool) (c : Col) (s : Nat) :
    ((freeze_check h alloc c s).1.1.frozen_trails = c.frozen_trails ∧
      (freeze_check h alloc c s).1.1.frozen = c.frozen) ∨
    ((freeze_check h alloc c s).1.1.frozen_trails = c.frozen_trails ∧
      (freeze_check h alloc c s).1.1.frozen = true) ∨
    ((freeze_check h alloc c s).1.1.frozen_trails =
        c.frozen_trails ++ [⟨c.trail_chars.take c.trail_lengths, c.drops * 20, 1⟩] ∧
      (freeze_check h alloc c s).1.1.frozen = true) := by
  simp only [freeze_check]
  split <;> [skip; exact Or.inl ⟨rfl, rfl⟩]
  split <;> [skip; exact Or.inl ⟨rfl, rfl⟩]
  split
  · split
    · refine Or.inr (Or.inr ⟨?_, ?_⟩)
      · rw [capture_ftrails]
      · exact (capture_pres _ _ _).1
    · exact Or.inr (Or.inl ⟨rfl, rfl⟩)
  · refine Or.inr (Or.inr ⟨?_, ?_⟩)
    · rw [capture_ftrails]
    · exact (capture_pres _ _ _).1

/-! ## The drain loop: each entry is faded exactly once, and removed exactly
when its faded alpha is ≤ 0 (the swap-with-last removal permutes the rest). -/

/-- The Boolean survival test of matrix.c:352 applied after fading. -/
def keeps (e : FrozenTrail) : Bool := decide (0 < e.alpha)

lemma drainAux_nil (fuel : Nat) (acc : List FrozenTrail) : drainAux fuel acc [] = acc := by
  cases fuel <;> rfl

lemma drainAux_cons_keep (fuel : Nat) (acc : List FrozenTrail) (e : FrozenTrail)
    (rest' : List FrozenTrail) (hk : ¬ (fade_entry e).alpha ≤ 0) :
    drainAux (fuel + 1) acc (e :: rest') = drainAux fuel (acc ++ [fade_entry e]) rest' := by
  simp only [drainAux]
  rw [if_neg hk]

lemma drainAux_cons_drop_last (fuel : Nat) (acc : List FrozenTrail) (e : FrozenTrail)
    (hk : (fade_entry e).alpha ≤ 0) :
    drainAux (fuel + 1) acc [e] = acc := by
  simp only [drainAux]
  rw [if_pos hk]

lemma drainAux_cons_drop (fuel : Nat) (acc : List FrozenTrail) (e y : FrozenTrail)
    (ys : List FrozenTrail) (hk : (fade_entry e).alpha ≤ 0) :
    drainAux (fuel + 1) acc (e :: y :: ys) =
      drainAux fuel acc ((y :: ys).getLastD e :: (y :: ys).dropLast) := by
  simp only [drainAux]
  rw [if_pos hk]

lemma cons_getLastD_dropLast_perm (e y : FrozenTrail) (ys : List FrozenTrail) :
    ((y :: ys).getLastD e :: (y :: ys).dropLast).Perm (y :: ys) := by
  have hgl : (y :: ys).getLastD e = (y :: ys).getLast (by simp) := by
    rw [List.getLast_eq_getLastD]
    cases ys <;> simp [List.getLastD]
  rw [hgl]
  have h2 := List.perm_append_singleton ((y :: ys).getLast (by simp)) (y :: ys).dropLast
  rw [List.dropLast_append_getLast] at h2
  exact h2.symm

lemma drainAux_perm_aux :
    ∀ (n : Nat) (acc rest : List FrozenTrail), rest.length ≤ n →
      (drainAux n acc rest).Perm (acc ++ (rest.map fade_entry).filter keeps) := by
  intro n
  induction n with
  | zero =>
    intro acc rest hn
    have : rest = [] := by
      cases rest with
      | nil => rfl
      | cons a l => simp at hn
    subst this
    simp [drainAux_nil]
  | succ n ih =>
    intro acc rest hn
    match rest with
    | [] => simp [drainAux_nil]
    | e :: rest' =>
      by_cases hk : (fade_entry e).alpha ≤ 0
      · have hkeep : keeps (fade_entry e) = false := by
          simp only [keeps, decide_eq_false_iff_not, not_lt]
          exact hk
        match rest' with
        | [] =>
          rw [drainAux_cons_drop_last _ _ _ hk]
          simp [hkeep, List.filter_cons]
        | y :: ys =>
          rw [drainAux_cons_drop _ _ _ _ _ hk]
          have hlen : ((y :: ys).getLastD e :: (y :: ys).dropLast).length ≤ n := by
            simp at hn ⊢
            omega
          refine (ih _ _ hlen).trans (List.Perm.append_left _ ?_)
          refine (List.Perm.filter keeps
            (List.Perm.map fade_entry (cons_getLastD_dropLast_perm e y ys))).trans ?_
          simp [hkeep, List.filter_cons]
      · have hkeep : keeps (fade_entry e) = true := by
          simp only [keeps, decide_eq_true_eq]
          exact lt_of_not_le hk
        rw [drainAux_cons_keep _ _ _ _ hk]
        have hlen : rest'.length ≤ n := by
          simp at hn
          omega
        refine (ih _ _ hlen).trans ?_
        simp [hkeep, List.filter_cons, List.append_assoc]

/-- The drain pass returns, in some order, exactly the entries of the input
with alpha lowered once by `FADE_RATE`, minus those whose lowered alpha
is ≤ 0. -/
lemma drain_perm (l : List FrozenTrail) :
    (drain l).Perm ((l.map fade_entry).filter keeps) := by
  simpa using drainAux_perm_aux l.length [] l (le_refl _)

/-- Membership form: every survivor of the drain is a faded copy of an input
entry; in particular its characters are unchanged. -/
lemma drain_mem (l : List FrozenTrail) {e : FrozenTrail} (he : e ∈ drain l) :
    ∃ e₀ ∈ l, e = fade_entry e₀ ∧ 0 < e.alpha := by
  have := (drain_perm l).mem_iff.mp he
  rcases List.mem_filter.mp this with ⟨hmem, hkeep⟩
  rcases List.mem_map.mp hmem with ⟨e₀, he₀, heq⟩
  refine ⟨e₀, he₀, heq.symm, ?_⟩
  simpa [keeps] using hkeep

lemma drain_col_pres (c : Col) :
    (drain_col c).drops = c.drops ∧
    (drain_col c).frozen = c.frozen ∧
    (drain_col c).trail_chars = c.trail_chars ∧
    (drain_col c).trail_lengths = c.trail_lengths ∧
    (drain_col c).trail_alphas = c.trail_alphas ∧
    (drain_col c).frozen_trail_capacities = c.frozen_trail_capacities := by
  simp [drain_col]


/-! ## Initialization facts -/

lemma init_cols_length (height : Int) (n : Nat) (s : Nat) :
    (init_cols height n s).1.length = n := by
  induction n generalizing s with
  | zero => rfl
  | succ n ih => simp [init_cols, ih]

lemma init_col_shape (height : Int) (s : Nat) :
    (init_col height s).1.frozen = false ∧
    (init_col height s).1.frozen_trails = [] ∧
    (init_col height s).1.frozen_trail_capacities = 0 ∧
    (init_col height s).1.trail_alphas = 1 := by
  simp only [init_col]
  split <;> simp

lemma gen_chars_length (n s : Nat) : (gen_chars n s).1.length = n := by
  induction n generalizing s with
  | zero => rfl
  | succ n ih => simp [gen_chars, ih]

lemma init_col_len (height : Int) (s : Nat) :
    30 ≤ (init_col height s).1.trail_lengths ∧
    (init_col height s).1.trail_lengths ≤ 40 ∧
    (init_col height s).1.trail_chars.length = 40 := by
  have hl := rng_int_range_len s
  simp only [init_col]
  split <;>
    simp only [List.length_append, gen_chars_length, List.length_replicate] <;>
    exact ⟨hl.1, hl.2, by omega⟩


/-! ## Claim C5: column-count derivation in Matrix_init -/

/-- C5: `Matrix_init` derives the column count as `floor(width / cell_width)`
capped at 500 and fails (returns no engine) when the cell width is
non-positive or the computed column count is zero; `width = 1000` with
`cell_width = 20` gives 50 columns, a width below one `cell_width` gives the
zero-columns failure, and any width implying more than 500 columns gives
exactly 500. -/
theorem C5_column_count :
    (compute_columns 1000 20 = 50) ∧
    (∀ w cw : Int, 0 ≤ w → 0 < cw → w.tdiv cw ≤ 500 →
      compute_columns w cw = (w.tdiv cw).toNat) ∧
    (∀ w cw : Int, 0 ≤ w → w < 2147483648 → 0 < cw → 500 < w.tdiv cw →
      compute_columns w cw = 500) ∧
    (∀ (w h cw : Int) (seed : Nat) (t0 : Int), cw ≤ 0 →
      Matrix_init w h cw seed t0 = none) ∧
    (∀ (w h cw : Int) (seed : Nat) (t0 : Int), 0 ≤ w → w < cw →
      Matrix_init w h cw seed t0 = none) ∧
    (∀ (w h cw : Int) (seed : Nat) (t0 : Int), compute_columns w cw ≠ 0 →
      (Matrix_init w h cw seed t0).map (fun m => m.cols.length) =
        some (compute_columns w cw)) := by
  refine ⟨by decide, ?_, ?_, ?_, ?_, ?_⟩
  · intro w cw hw hcw hle
    have ht : w.tdiv cw = w / cw := Int.tdiv_eq_ediv hw (by omega)
    have hq : 0 ≤ w.tdiv cw := by
      rw [ht]
      exact Int.ediv_nonneg hw (by omega)
    simp only [compute_columns, int_to_size_t, if_pos hcw]
    rw [Int.emod_eq_of_lt hq (by omega)]
    omega
  · intro w cw hw hw2 hcw hgt
    have ht : w.tdiv cw = w / cw := Int.tdiv_eq_ediv hw (by omega)
    have hq : 0 ≤ w.tdiv cw := by
      rw [ht]
      exact Int.ediv_nonneg hw (by omega)
    have hlt : w.tdiv cw < 18446744073709551616 := by
      rw [ht]
      have : w / cw ≤ w := Int.ediv_le_self cw hw
      omega
    simp only [compute_columns, int_to_size_t, if_pos hcw]
    rw [Int.emod_eq_of_lt hq hlt]
    omega
  · intro w h cw seed t0 hcw
    have : ¬ (0 : Int) < cw := by omega
    simp [Matrix_init, compute_columns, this]
  · intro w h cw seed t0 hw hlt
    have hcw : 0 < cw := by omega
    have ht : w.tdiv cw = w / cw := Int.tdiv_eq_ediv hw (by omega)
    have hz : w / cw = 0 := Int.ediv_eq_zero_of_lt hw hlt
    simp [Matrix_init, compute_columns, int_to_size_t, hcw, ht, hz]
  · intro w h cw seed t0 hne
    simp [Matrix_init, hne, init_cols_length]


/-- Witness for C5 at concrete inputs: 1000/20 → 50 columns (and an engine
with 50 columns), width 5 < cell width 20 → no engine, non-positive cell
width → no engine, 20000/2 = 10000 > 500 → capped at 500. -/
theorem C5_column_count_witness :
    compute_columns 1000 20 = 50 ∧
    compute_columns 1000 20 = ((1000 : Int).tdiv 20).toNat ∧
    compute_columns 20000 2 = 500 ∧
    Matrix_init 5 400 0 7 0 = none ∧
    Matrix_init 5 400 20 7 0 = none ∧
    (Matrix_init 1000 400 20 7 0).map (fun m => m.cols.length) =
      some (compute_columns 1000 20) :=
  ⟨C5_column_count.1,
   C5_column_count.2.1 1000 20 (by norm_num) (by norm_num) (by decide),
   C5_column_count.2.2.1 20000 2 (by norm_num) (by norm_num) (by norm_num) (by decide),
   C5_column_count.2.2.2.1 5 400 0 7 0 (by norm_num),
   C5_column_count.2.2.2.2.1 5 400 20 7 0 (by norm_num) (by norm_num),
   C5_column_count.2.2.2.2.2 1000 400 20 7 0 (by decide)⟩

/-! ## Claim C6: the update is time-gated -/

/-- C6: if `update` is called when `now - last_update` is strictly below the
70 ms interval, the whole engine state is unchanged; consequently a second
update call within less than the interval after a first call leaves the state
exactly as after the first call. -/
theorem C6_time_gate :
    (∀ (m : Matrix) (now : Int) (alloc : Bool),
      now - m.last_update < MATRIX_SPEED_MS → Matrix_update now alloc m = m) ∧
    (∀ (m : Matrix) (now1 now2 : Int) (alloc1 alloc2 : Bool),
      now2 - (Matrix_update now1 alloc1 m).last_update < MATRIX_SPEED_MS →
      Matrix_update now2 alloc2 (Matrix_update now1 alloc1 m) =
        Matrix_update now1 alloc1 m) := by
  constructor
  · intro m now alloc hlt
    rw [Matrix_update, if_pos hlt]
  · intro m now1 now2 alloc1 alloc2 hlt
    rw [Matrix_update, if_pos hlt]

/-- Concrete engine used to witness C6. -/
def gate_matrix : Matrix := ⟨200, 400, 20, [⟨3, false, List.replicate 40 48, 30, 1, [], 0⟩], 5, 100⟩

/-- Witness for C6: at `now = 150` with `last_update = 100` the gap is 50 ms
< 70 ms and the update leaves the engine untouched. -/
theorem C6_time_gate_witness :
    (150 : Int) - gate_matrix.last_update < MATRIX_SPEED_MS ∧
    Matrix_update 150 true gate_matrix = gate_matrix :=
  ⟨by decide, C6_time_gate.1 gate_matrix 150 true (by decide)⟩

/-! ## Claim C8: gradient brightness floor -/

/-- C8: for a trail of length 30 the gradient brightness of the last
character (index 29) before alpha scaling is exactly 50 — `255 / 30 = 8`
in integer division, `255 - 29 * 8 = 23 < 50`, so the clamp to 50 applies —
and the clamp means no index of a length-30 trail is ever below 50; the
subtracted term `29 * (255 / 30) = 232` stays below 255, so the C unsigned
subtraction does not wrap. -/
theorem C8_brightness_floor :
    gradient_brightness 30 29 = 50 ∧
    (∀ k : Nat, 50 ≤ gradient_brightness 30 k) ∧
    29 * ((255 : Nat) / 30) ≤ 255 := by
  refine ⟨by decide, fun k => le_max_right _ _, by norm_num⟩


/-! ## Claim C2: restart after a trail fades out (corrected) -/

/-- An active (non-frozen) fading column about to cross alpha ≤ 0:
`alpha = 0.02`, so the next `FADE_RATE` decrement reaches `-0.02 ≤ 0`. -/
def c2_col : Col := ⟨-3, false, List.replicate 40 48, 30, 2 / 100, [], 0⟩

/-- Counterexample to C2 as stated: with screen height 24 (in chars) and RNG
state 13, the fade-out restart of matrix.c:294-298 re-seeds the position to
`-(rng_next(13) % 24) = 0` — not a negative value in
`[-screen_height_in_chars, 0)` — and the same tick's advance step then moves
the column to position 1. -/
theorem C2_counterexample :
    c2_col.frozen = false ∧
    c2_col.trail_alphas < 1 ∧
    c2_col.trail_alphas - FADE_RATE ≤ 0 ∧
    (fade_continue 24 c2_col 13).1.trail_alphas = 1 ∧
    (fade_continue 24 c2_col 13).1.drops = 0 ∧
    ¬ (fade_continue 24 c2_col 13).1.drops < 0 ∧
    (updateColumn 24 true c2_col 13).1.drops = 1 := by
  decide

/-- C2 as amended: when an active column's alpha reaches ≤ 0 under the
`FADE_RATE` decrement, the restart of matrix.c:294-298 re-seeds the position
to a NON-POSITIVE value in `(-screen_height_in_chars, 0]` (0 itself is
possible, since the negated RNG draw `rng % h` can be 0), resets alpha to 1
and picks a fresh trail length in `[30, 40]`. -/
theorem C2_fade_restart (h : Int) (c : Col) (s : Nat)
    (hh : 0 < h) (h1 : c.trail_alphas < 1) (h2 : c.trail_alphas - FADE_RATE ≤ 0) :
    (fade_continue h c s).1.trail_alphas = 1 ∧
    (fade_continue h c s).1.drops ≤ 0 ∧
    -h < (fade_continue h c s).1.drops ∧
    30 ≤ (fade_continue h c s).1.trail_lengths ∧
    (fade_continue h c s).1.trail_lengths ≤ 40 := by
  have hd := rng_int_range_pos s h
  have hl := rng_int_range_len (rng_int_range s 0 h).2
  rw [fade_continue, if_pos h1, if_pos h2]
  refine ⟨rfl, by simp; omega, by simp; omega, hl.1, hl.2⟩

/-- Witness for the amended C2 at the concrete input of the counterexample:
the restart fires, alpha becomes 1, and the position lands in `(-24, 0]`. -/
theorem C2_fade_restart_witness :
    ((0 : Int) < 24 ∧ c2_col.trail_alphas < 1 ∧ c2_col.trail_alphas - FADE_RATE ≤ 0) ∧
    ((fade_continue 24 c2_col 13).1.trail_alphas = 1 ∧
     (fade_continue 24 c2_col 13).1.drops ≤ 0 ∧
     -(24 : Int) < (fade_continue 24 c2_col 13).1.drops ∧
     30 ≤ (fade_continue 24 c2_col 13).1.trail_lengths ∧
     (fade_continue 24 c2_col 13).1.trail_lengths ≤ 40) :=
  ⟨⟨by decide, by decide, by decide⟩,
   C2_fade_restart 24 c2_col 13 (by decide) (by decide) (by decide)⟩

/-! ## Claim C1: the freeze event (corrected) -/

lemma capture_alpha_drops (h : Int) (c : Col) (s : Nat) :
    (capture h c s).1.trail_alphas = 1 ∧
    (capture h c s).1.drops ≤ 0 ∧
    (0 < h → -h < (capture h c s).1.drops) := by
  have hb := rng_int_range_pos s h
  refine ⟨rfl, ?_, fun hh => ?_⟩
  · show -(rng_int_range s 0 h).1 ≤ 0
    omega
  · show -h < -(rng_int_range s 0 h).1
    have := hb.2 hh
    omega

/-- When the freeze event's three conditions hold and the allocation
succeeds, `freeze_check` reduces to a `capture` of the column with the
`frozen` flag raised (and possibly a grown capacity), not skipped. -/
lemma freeze_check_fire (h : Int) (c : Col) (s : Nat)
    (h1 : h < c.drops) (h2 : 1 ≤ c.trail_alphas) (h3 : 9 / 10 < (rng_float s).1) :
    ∃ c1 : Col, freeze_check h true c s = (capture h c1 (rng_float s).2, false) ∧
      c1.frozen = true ∧ c1.trail_chars = c.trail_chars ∧
      c1.trail_lengths = c.trail_lengths ∧ c1.drops = c.drops ∧
      c1.frozen_trails = c.frozen_trails := by
  rw [freeze_check, if_pos ⟨h1, h2⟩, if_pos h3]
  dsimp only
  split
  · exact ⟨_, rfl, rfl, rfl, rfl, rfl, rfl⟩
  · exact ⟨_, rfl, rfl, rfl, rfl, rfl, rfl⟩

/-- An active, fully opaque trail at the bottom row of a 10-row screen, with
no frozen-trail storage yet. -/
def c1_col : Col := ⟨10, false, List.replicate 40 48, 30, 1, [], 0⟩

/-- Tick 1 at RNG state 1: the freeze roll fires and the realloc succeeds. -/
def c1_tick1 : Col × Nat := updateColumn 10 true c1_col 1

/-- Tick 2, straight after tick 1 (same column, threaded RNG). -/
def c1_tick2 : Col × Nat := updateColumn 10 true c1_tick1.1 c1_tick1.2

/-- Counterexample to C1 as stated: at RNG state 1 the freeze event fires on
`c1_col` (tick 1 leaves the column frozen with one snapshot), yet on the next
qualifying tick — with the frozen entry still present — the "newly active
trail" does NOT animate: its position stays exactly where the freeze left it
instead of incrementing by 1, because matrix.c:274-282 skips the whole
advance for frozen columns (and matrix.c:428 does not even render them). -/
theorem C1_counterexample :
    c1_tick1.1.frozen = true ∧
    c1_tick1.1.frozen_trails.length = 1 ∧
    0 < c1_tick2.1.frozen_trails.length ∧
    c1_tick2.1.frozen = true ∧
    c1_tick2.1.drops = c1_tick1.1.drops ∧
    ¬ c1_tick2.1.drops = c1_tick1.1.drops + 1 := by
  decide

/-- C1 as amended: when the freeze event fires (off-screen position
`drops > h`, alpha ≥ 1, roll > 0.9) and the storage growth succeeds, the
engine appends a snapshot of the current characters (first `trail_lengths`
glyphs) at `y_pos = position * FONT_HEIGHT` with `alpha = 1`, marks the
column frozen, and resets the active position into `(-h, 0]` and alpha to 1
— KEEPING the current `trail_lengths` rather than drawing a fresh one.  On
every subsequent tick while frozen entries remain, the active trail is
paused — position, length and alpha all unchanged — and only the frozen
snapshots decay (each loses `FADE_RATE` once, and is removed exactly when
its alpha drops to ≤ 0). -/
theorem C1_freeze_fire_then_pause :
    (∀ (h : Int) (c : Col) (s : Nat),
      h < c.drops → 1 ≤ c.trail_alphas → 9 / 10 < (rng_float s).1 →
      ((freeze_check h true c s).2 = false ∧
       (freeze_check h true c s).1.1.frozen = true ∧
       (freeze_check h true c s).1.1.frozen_trails =
         c.frozen_trails ++ [⟨c.trail_chars.take c.trail_lengths, c.drops * 20, 1⟩] ∧
       (freeze_check h true c s).1.1.trail_lengths = c.trail_lengths ∧
       (freeze_check h true c s).1.1.trail_alphas = 1 ∧
       (freeze_check h true c s).1.1.drops ≤ 0 ∧
       (0 < h → -h < (freeze_check h true c s).1.1.drops))) ∧
    (∀ (h : Int) (alloc : Bool) (c : Col) (s : Nat),
      c.frozen = true → -10000 < c.drops → c.frozen_trails ≠ [] →
      ((updateColumn h alloc c s).1.drops = c.drops ∧
       (updateColumn h alloc c s).1.frozen = true ∧
       (updateColumn h alloc c s).1.trail_lengths = c.trail_lengths ∧
       (updateColumn h alloc c s).1.trail_alphas = c.trail_alphas ∧
       (updateColumn h alloc c s).1.frozen_trails.Perm
         ((c.frozen_trails.map fade_entry).filter keeps))) := by
  constructor
  · intro h c s h1 h2 h3
    obtain ⟨c1, heq, hc1, hchars, hlen, hdrops, hft⟩ := freeze_check_fire h c s h1 h2 h3
    rw [heq]
    refine ⟨rfl, ?_, ?_, ?_, ?_, ?_, ?_⟩
    · rw [(capture_pres _ _ _).1, hc1]
    · rw [capture_ftrails, hft, hchars, hlen, hdrops]
    · rw [(capture_pres _ _ _).2.2.1, hlen]
    · exact (capture_alpha_drops _ _ _).1
    · exact (capture_alpha_drops _ _ _).2.1
    · exact (capture_alpha_drops _ _ _).2.2
  · intro h alloc c s hf hd hne
    have hd' : ¬ c.drops ≤ -10000 := by omega
    rw [updateColumn, if_neg hd', if_pos hf, unfreeze_check_ne _ _ _ hne]
    obtain ⟨f1, f2, f3, f4, f5, f6⟩ := flicker_pres c s
    obtain ⟨g1, g2, g3, g4, g5, g6⟩ := drain_col_pres (flicker c s).1
    refine ⟨?_, ?_, ?_, ?_, ?_⟩
    · rw [g1, f1]
    · rw [g2, f2, hf]
    · rw [g4, f3]
    · rw [g5, f4]
    · show (drain_col (flicker c s).1).frozen_trails.Perm _
      show (drain (flicker c s).1.frozen_trails).Perm _
      rw [f5]
      exact drain_perm c.frozen_trails

/-- A frozen column holding one half-faded snapshot, used to witness the
pause conjunct of the amended C1. -/
def c1_frozen_col : Col :=
  ⟨-4, true, List.replicate 40 48, 32, 1, [⟨[50, 51], 200, mkRat 1 2⟩], 4⟩

/-- An off-screen opaque column (the freeze precondition holds). -/
def c1_hot_col : Col := ⟨11, false, List.replicate 40 48, 30, 1, [], 0⟩

/-- Witness for the amended C1: the freeze conjunct at `c1_hot_col` with RNG
state 10 (whose roll is > 0.9), and the pause conjunct on a frozen column
with one remaining snapshot. -/
theorem C1_freeze_fire_then_pause_witness :
    ((10 : Int) < c1_hot_col.drops ∧ (9 : ℚ) / 10 < (rng_float 10).1) ∧
    ((freeze_check 10 true c1_hot_col 10).2 = false ∧
     (freeze_check 10 true c1_hot_col 10).1.1.frozen = true ∧
     (freeze_check 10 true c1_hot_col 10).1.1.frozen_trails =
       c1_hot_col.frozen_trails ++
         [⟨c1_hot_col.trail_chars.take c1_hot_col.trail_lengths, c1_hot_col.drops * 20, 1⟩] ∧
     (freeze_check 10 true c1_hot_col 10).1.1.trail_alphas = 1) ∧
    ((updateColumn 10 true c1_frozen_col 0).1.drops = c1_frozen_col.drops ∧
     (updateColumn 10 true c1_frozen_col 0).1.frozen = true ∧
     (updateColumn 10 true c1_frozen_col 0).1.frozen_trails.Perm
       ((c1_frozen_col.frozen_trails.map fade_entry).filter keeps)) := by
  have h3 : (9 : ℚ) / 10 < (rng_float 10).1 := by decide
  have hfire := C1_freeze_fire_then_pause.1 10 c1_hot_col 10 (by decide) (by decide) h3
  have hpause := C1_freeze_fire_then_pause.2 10 true c1_frozen_col 0
    (by decide) (by decide) (by decide)
  exact ⟨⟨by decide, h3⟩, ⟨hfire.1, hfire.2.1, hfire.2.2.1, hfire.2.2.2.2.1⟩,
    ⟨hpause.1, hpause.2.1, hpause.2.2.2.2⟩⟩

/-! ## Claim C3: realloc failure in the freeze event (code bug) -/

/-- The same off-screen opaque column shape as `c1_col`, but this tick the
frozen-trail `realloc` fails. -/
def c3_col : Col := ⟨10, false, List.replicate 40 48, 30, 1, [], 0⟩

/-- Tick 1 at RNG state 1 with the allocation oracle saying the `realloc`
fails. -/
def c3_tick1 : Col × Nat := updateColumn 10 false c3_col 1

/-- Tick 2 (allocation outcome irrelevant: the freeze check is never
reached). -/
def c3_tick2 : Col × Nat := updateColumn 10 true c3_tick1.1 c3_tick1.2

/-- C3 evaluated at the failing input.  The claim (and the code comment
"preserving existing state" at matrix.c:325) say the failed freeze leaves
the column's state otherwise unchanged and the freeze is retried next tick.
In fact matrix.c:318 sets `frozen[i] = TRUE` BEFORE attempting the realloc:
after the failed tick the column is frozen with zero snapshots although its
trigger condition is still true, and the next tick takes the frozen branch,
which unfreezes it and restarts the trail from scratch (position re-seeded
≤ 0, alpha 1) — the off-screen trail is dropped without ever being captured,
and the freeze is never retried. -/
theorem C3_realloc_failure_behavior :
    c3_tick1.1.frozen = true ∧
    c3_tick1.1.frozen_trails = [] ∧
    c3_tick1.1.drops = 11 ∧
    c3_tick1.1.trail_alphas = 1 ∧
    10 < c3_tick1.1.drops ∧
    c3_tick2.1.frozen = false ∧
    c3_tick2.1.frozen_trails = [] ∧
    c3_tick2.1.drops ≤ 0 ∧
    c3_tick2.1.trail_alphas = 1 := by
  decide

/-! ## Claim C4: frozen-trail decay, removal, and the frozen→active
transition (corrected) -/

/-- A frozen column whose last frozen snapshot has already been drained. -/
def c4_cex_col : Col := ⟨5, true, List.replicate 40 48, 30, 1, [], 0⟩

/-- Counterexample to C4 as stated: the claim's frozen→active transition
promises a fresh restart with a NEW NEGATIVE position, but the re-seed of
matrix.c:279 is `-rng_int_range(0, screen_height_in_chars)`, whose draw can
be 0.  At RNG state 13 with a 24-row screen the drained frozen column
unfreezes to position exactly 0 — not negative (and the frozen branch does
not advance the position afterwards, so the tick ends at 0). -/
theorem C4_counterexample :
    c4_cex_col.frozen = true ∧
    c4_cex_col.frozen_trails = [] ∧
    (updateColumn 24 true c4_cex_col 13).1.frozen = false ∧
    (updateColumn 24 true c4_cex_col 13).1.trail_alphas = 1 ∧
    (updateColumn 24 true c4_cex_col 13).1.drops = 0 ∧
    ¬ (updateColumn 24 true c4_cex_col 13).1.drops < 0 := by
  decide

/-- C4 as amended: on a qualifying tick, a non-inactive frozen column's `frozen_trails`
become exactly (up to the swap-remove reordering) the old entries each with
alpha lowered once by `FADE_RATE`, minus precisely those whose lowered alpha
is ≤ 0; a frozen column with no remaining entries transitions frozen→active
with a fresh restart (alpha 1, a new NON-POSITIVE position in `(-h, 0]` —
0 itself is possible, as the counterexample shows — length in `[30, 40]`),
and one with remaining entries stays frozen this tick. -/
theorem C4_frozen_drain (h : Int) (alloc : Bool) (c : Col) (s : Nat)
    (hd : -10000 < c.drops) (hf : c.frozen = true) (hh : 0 < h) :
    ((updateColumn h alloc c s).1.frozen_trails.Perm
       ((c.frozen_trails.map fade_entry).filter keeps)) ∧
    (c.frozen_trails = [] →
      ((updateColumn h alloc c s).1.frozen = false ∧
       (updateColumn h alloc c s).1.trail_alphas = 1 ∧
       (updateColumn h alloc c s).1.drops ≤ 0 ∧
       -h < (updateColumn h alloc c s).1.drops ∧
       30 ≤ (updateColumn h alloc c s).1.trail_lengths ∧
       (updateColumn h alloc c s).1.trail_lengths ≤ 40)) ∧
    (c.frozen_trails ≠ [] → (updateColumn h alloc c s).1.frozen = true) := by
  have hd' : ¬ c.drops ≤ -10000 := by omega
  rw [updateColumn, if_neg hd', if_pos hf]
  by_cases hft : c.frozen_trails = []
  · have hu : (unfreeze_check h c s).1.frozen_trails = c.frozen_trails :=
      (unfreeze_check_pres h c s).2.1
    obtain ⟨f1, f2, f3, f4, f5, f6⟩ := flicker_pres (unfreeze_check h c s).1 (unfreeze_check h c s).2
    obtain ⟨g1, g2, g3, g4, g5, g6⟩ := drain_col_pres (flicker (unfreeze_check h c s).1 (unfreeze_check h c s).2).1
    have hlen0 : c.frozen_trails.length = 0 := by rw [hft]; rfl
    have hub := rng_int_range_pos s h
    have hul := rng_int_range_len (rng_int_range s 0 h).2
    refine ⟨?_, fun _ => ⟨?_, ?_, ?_, ?_, ?_, ?_⟩, fun hne => absurd hft hne⟩
    · show (drain (flicker (unfreeze_check h c s).1 (unfreeze_check h c s).2).1.frozen_trails).Perm _
      rw [f5, hu, hft]
      simp [drain, drainAux_nil]
    · rw [g2, f2]
      rw [unfreeze_check, if_pos hlen0]
    · rw [g5, f4]
      rw [unfreeze_check, if_pos hlen0]
    · rw [g1, f1]
      rw [unfreeze_check, if_pos hlen0]
      show -(rng_int_range s 0 h).1 ≤ 0
      omega
    · rw [g1, f1]
      rw [unfreeze_check, if_pos hlen0]
      show -h < -(rng_int_range s 0 h).1
      have := hub.2 hh
      omega
    · rw [g4, f3]
      rw [unfreeze_check, if_pos hlen0]
      exact hul.1
    · rw [g4, f3]
      rw [unfreeze_check, if_pos hlen0]
      exact hul.2
  · rw [unfreeze_check_ne _ _ _ hft]
    obtain ⟨f1, f2, f3, f4, f5, f6⟩ := flicker_pres c s
    obtain ⟨g1, g2, g3, g4, g5, g6⟩ := drain_col_pres (flicker c s).1
    refine ⟨?_, fun hc => absurd hc hft, fun _ => ?_⟩
    · show (drain (flicker c s).1.frozen_trails).Perm _
      rw [f5]
      exact drain_perm c.frozen_trails
    · rw [g2, f2, hf]

/-- A frozen column with two snapshots: one at alpha 1/2 (survives the tick)
and one at alpha 1/100 (removed by this tick's drain). -/
def c4_col : Col :=
  ⟨5, true, List.replicate 40 48, 30, 1,
   [⟨[48], 100, mkRat 1 2⟩, ⟨[49], 120, mkRat 1 100⟩], 4⟩

/-- Witness for C4 on `c4_col`: the drain keeps the half-faded snapshot (at
alpha 0.46) and removes the nearly-dead one, and the column stays frozen. -/
theorem C4_frozen_drain_witness :
    ((-10000 : Int) < c4_col.drops ∧ c4_col.frozen = true ∧ (0 : Int) < 10) ∧
    ((updateColumn 10 true c4_col 0).1.frozen_trails.Perm
       ((c4_col.frozen_trails.map fade_entry).filter keeps) ∧
     (updateColumn 10 true c4_col 0).1.frozen = true) :=
  ⟨⟨by decide, by decide, by decide⟩,
   (C4_frozen_drain 10 true c4_col 0 (by decide) (by decide) (by decide)).1,
   (C4_frozen_drain 10 true c4_col 0 (by decide) (by decide) (by decide)).2.2
     (by decide)⟩

/-! ## Claim C7: snapshot capture equality and independence -/

/-- C7: the freeze capture stores exactly the live column's first
`trail_lengths` characters (at the moment of capture) at
`y_pos = drops * FONT_HEIGHT` with alpha 1; and the snapshot is independent
thereafter: the live-character mutations — the per-tick shift (`advance`)
and the 10% flicker mutation — do not touch `frozen_trails` at all, and the
drain pass never changes any surviving entry's stored characters. -/
theorem C7_snapshot_capture :
    (∀ (h : Int) (c : Col) (s : Nat),
      (capture h c s).1.frozen_trails =
        c.frozen_trails ++ [⟨c.trail_chars.take c.trail_lengths, c.drops * 20, 1⟩]) ∧
    (∀ (c : Col) (s : Nat), (flicker c s).1.frozen_trails = c.frozen_trails) ∧
    (∀ (c : Col) (s : Nat), (advance c s).1.frozen_trails = c.frozen_trails) ∧
    (∀ l : List FrozenTrail,
      (drain l).all (fun e => l.any (fun e₀ => e.characters == e₀.characters)) = true) := by
  refine ⟨capture_ftrails, ?_, ?_, ?_⟩
  · intro c s
    exact (flicker_pres c s).2.2.2.2.1
  · intro c s
    exact (advance_pres c s).2.2.2.1
  · intro l
    rw [List.all_eq_true]
    intro e he
    obtain ⟨e₀, he₀, heq, _⟩ := drain_mem l he
    rw [List.any_eq_true]
    refine ⟨e₀, he₀, ?_⟩
    rw [beq_iff_eq, heq]
    rfl

/-! ## Claim C9: frozen_trail_counts[i] > 0 implies frozen[i] -/

/-- The invariant of C9 as a Boolean column predicate: a column holding
undrained frozen-trail entries is flagged frozen. -/
def frozen_flag_ok (c : Col) : Bool := c.frozen_trails.length == 0 || c.frozen

lemma drain_col_ftrails (c : Col) :
    (drain_col c).frozen_trails = drain c.frozen_trails := rfl

lemma updateColumn_flag_ok (h : Int) (alloc : Bool) (c : Col) (s : Nat)
    (hc : frozen_flag_ok c = true) :
    frozen_flag_ok (updateColumn h alloc c s).1 = true := by
  rw [updateColumn]
  by_cases hd : c.drops ≤ -10000
  · rw [if_pos hd]
    simp only [frozen_flag_ok] at hc ⊢
    rw [(reactivate_pres h c s).1, (reactivate_pres h c s).2.2.1]
    exact hc
  · rw [if_neg hd]
    by_cases hf : c.frozen = true
    · rw [if_pos hf]
      dsimp only
      by_cases hft : c.frozen_trails = []
      · simp only [frozen_flag_ok]
        have hdc : (drain_col (flicker (unfreeze_check h c s).1 (unfreeze_check h c s).2).1).frozen_trails
            = drain c.frozen_trails := by
          show drain (flicker (unfreeze_check h c s).1 (unfreeze_check h c s).2).1.frozen_trails = _
          rw [(flicker_pres _ _).2.2.2.2.1, (unfreeze_check_pres h c s).2.1]
        rw [hdc, hft]
        rfl
      · rw [unfreeze_check_ne _ _ _ hft]
        simp only [frozen_flag_ok]
        rw [(drain_col_pres _).2.1, (flicker_pres c s).2.1, hf, Bool.or_true]
    · rw [if_neg hf]
      have hfb : c.frozen = false := by
        revert hf
        cases c.frozen <;> simp
      have hft : c.frozen_trails = [] := by
        simp only [frozen_flag_ok, hfb, Bool.or_false, beq_iff_eq] at hc
        rwa [List.length_eq_zero] at hc
      dsimp only
      have hbft : (fade_continue h (fade_start c s).1 (fade_start c s).2).1.frozen_trails = [] := by
        rw [(fade_continue_pres _ _ _).2.2.1, (fade_start_pres c s).2.2.2.2.1, hft]
      have hdft : (advance (fade_continue h (fade_start c s).1 (fade_start c s).2).1
          (fade_continue h (fade_start c s).1 (fade_start c s).2).2).1.frozen_trails = [] := by
        rw [(advance_pres _ _).2.2.2.1, hbft]
      have hdfr : (advance (fade_continue h (fade_start c s).1 (fade_start c s).2).1
          (fade_continue h (fade_start c s).1 (fade_start c s).2).2).1.frozen = false := by
        rw [(advance_pres _ _).1, (fade_continue_pres _ _ _).1, (fade_start_pres c s).2.1, hfb]
      rcases freeze_check_ftrails h alloc
          (advance (fade_continue h (fade_start c s).1 (fade_start c s).2).1
            (fade_continue h (fade_start c s).1 (fade_start c s).2).2).1
          (advance (fade_continue h (fade_start c s).1 (fade_start c s).2).1
            (fade_continue h (fade_start c s).1 (fade_start c s).2).2).2 with
        hcase | hcase | hcase
      · split
        · simp only [frozen_flag_ok]
          rw [hcase.1, hdft]
          rfl
        · simp only [frozen_flag_ok]
          rw [drain_col_ftrails, (flicker_pres _ _).2.2.2.2.1, hcase.1, hdft]
          rfl
      · split
        · simp only [frozen_flag_ok]
          rw [hcase.2, Bool.or_true]
        · simp only [frozen_flag_ok]
          rw [(drain_col_pres _).2.1, (flicker_pres _ _).2.1, hcase.2, Bool.or_true]
      · split
        · simp only [frozen_flag_ok]
          rw [hcase.2, Bool.or_true]
        · simp only [frozen_flag_ok]
          rw [(drain_col_pres _).2.1, (flicker_pres _ _).2.1, hcase.2, Bool.or_true]

/-! Generic lifting of a per-column Boolean invariant through the update
loop, the time-gated update, a run of updates, and initialization. -/

lemma updateCols_all (h : Int) (alloc : Bool) (P : Col → Bool)
    (hP : ∀ (c : Col) (s : Nat), P c = true → P (updateColumn h alloc c s).1 = true) :
    ∀ (cs : List Col) (s : Nat), cs.all P = true → (updateCols h alloc cs s).1.all P = true := by
  intro cs
  induction cs with
  | nil =>
    intro s h0
    simp [updateCols]
  | cons c cs ih =>
    intro s h0
    simp only [List.all_cons, Bool.and_eq_true] at h0
    simp only [updateCols, List.all_cons, Bool.and_eq_true]
    exact ⟨hP _ _ h0.1, ih _ h0.2⟩

lemma Matrix_update_all (P : Col → Bool)
    (hP : ∀ (h : Int) (alloc : Bool) (c : Col) (s : Nat),
      P c = true → P (updateColumn h alloc c s).1 = true)
    (now : Int) (alloc : Bool) (m : Matrix) (hm : m.cols.all P = true) :
    (Matrix_update now alloc m).cols.all P = true := by
  rw [Matrix_update]
  split
  · exact hm
  · exact updateCols_all _ _ P (hP _ _) m.cols m.rng_state hm

lemma run_updates_all (P : Col → Bool)
    (hP : ∀ (h : Int) (alloc : Bool) (c : Col) (s : Nat),
      P c = true → P (updateColumn h alloc c s).1 = true) :
    ∀ (ticks : List (Int × Bool)) (m : Matrix), m.cols.all P = true →
      (run_updates m ticks).cols.all P = true := by
  intro ticks
  induction ticks with
  | nil =>
    intro m hm
    exact hm
  | cons t ts ih =>
    intro m hm
    exact ih _ (Matrix_update_all P hP t.1 t.2 m hm)

lemma init_cols_all (P : Col → Bool)
    (hP : ∀ (height : Int) (s : Nat), P (init_col height s).1 = true) (height : Int) :
    ∀ (n s : Nat), (init_cols height n s).1.all P = true := by
  intro n
  induction n with
  | zero =>
    intro s
    rfl
  | succ n ih =>
    intro s
    simp only [init_cols, List.all_cons, Bool.and_eq_true]
    exact ⟨hP _ _, ih _⟩

lemma Matrix_init_cols (w h cw : Int) (seed : Nat) (t0 : Int) (m : Matrix)
    (hm : Matrix_init w h cw seed t0 = some m) :
    m.cols = (init_cols h (compute_columns w cw) seed).1 := by
  rw [Matrix_init] at hm
  split at hm
  · exact absurd hm (by simp)
  · cases hm
    rfl

/-- C9: in every state reachable from `Matrix_init` by any sequence of
`Matrix_update` calls (any clock values, any realloc outcomes), every column
with a positive frozen-trail count has its frozen flag set. -/
theorem C9_frozen_flag_invariant (w h cw : Int) (seed : Nat) (t0 : Int)
    (ticks : List (Int × Bool)) (m : Matrix)
    (hm : Matrix_init w h cw seed t0 = some m) :
    (run_updates m ticks).cols.all frozen_flag_ok = true := by
  apply run_updates_all frozen_flag_ok
  · intro h' alloc c s
    exact updateColumn_flag_ok h' alloc c s
  · rw [Matrix_init_cols w h cw seed t0 m hm]
    apply init_cols_all
    intro height s
    simp only [frozen_flag_ok]
    rw [(init_col_shape height s).2.1]
    rfl

/-- The concrete one-column engine `Matrix_init 20 20 20 0 0` used by the
invariant witnesses. -/
def m9 : Matrix := (Matrix_init 20 20 20 0 0).getD default

/-- Witness for C9: the invariant evaluated on the concrete engine after two
update ticks, one with a failing realloc. -/
theorem C9_frozen_flag_invariant_witness :
    (run_updates m9 [(100, true), (200, false)]).cols.all frozen_flag_ok = true :=
  C9_frozen_flag_invariant 20 20 20 0 0 [(100, true), (200, false)] m9 (by rfl)

/-! ## Claim C10: trail lengths stay in [30, 40] and all accesses fit -/

/-- The invariant of C10 as a Boolean column predicate: the trail length is
in `[MIN_TRAIL_LENGTH, MAX_TRAIL_LENGTH] = [30, 40]`, the character buffer
keeps its 40 slots, and every frozen snapshot fits the 64-`WCHAR` buffer. -/
def col_bounds_ok (c : Col) : Bool :=
  decide (30 ≤ c.trail_lengths) && decide (c.trail_lengths ≤ 40) &&
  (c.trail_chars.length == 40) &&
  c.frozen_trails.all (fun e => decide (e.characters.length ≤ 64))

/-- The same invariant as a proposition. -/
def colBounds (c : Col) : Prop :=
  30 ≤ c.trail_lengths ∧ c.trail_lengths ≤ 40 ∧ c.trail_chars.length = 40 ∧
  ∀ e ∈ c.frozen_trails, e.characters.length ≤ 64

lemma col_bounds_ok_iff (c : Col) : col_bounds_ok c = true ↔ colBounds c := by
  simp [col_bounds_ok, colBounds, List.all_eq_true, and_assoc]

lemma shift_chars_length (l : List Nat) (len : Nat) (h1 : 1 ≤ len)
    (h2 : len ≤ l.length) : (shift_chars l len).length = l.length := by
  simp only [shift_chars, List.length_append, List.length_take, List.length_drop]
  omega

lemma drain_entries_le (l : List FrozenTrail)
    (hl : ∀ e ∈ l, e.characters.length ≤ 64) :
    ∀ e ∈ drain l, e.characters.length ≤ 64 := by
  intro e he
  obtain ⟨e₀, he₀, heq, _⟩ := drain_mem l he
  rw [heq]
  exact hl e₀ he₀

lemma flicker_drain_bounds (c : Col) (s : Nat) (hb : colBounds c) :
    colBounds (drain_col (flicker c s).1) := by
  obtain ⟨h30, h40, hlen, hents⟩ := hb
  refine ⟨?_, ?_, ?_, ?_⟩
  · rw [(drain_col_pres _).2.2.2.1, (flicker_pres c s).2.2.1]
    exact h30
  · rw [(drain_col_pres _).2.2.2.1, (flicker_pres c s).2.2.1]
    exact h40
  · rw [(drain_col_pres _).2.2.1, flicker_chars_len, hlen]
  · rw [drain_col_ftrails, (flicker_pres c s).2.2.2.2.1]
    exact drain_entries_le _ hents

lemma updateColumn_bounds_ok (h : Int) (alloc : Bool) (c : Col) (s : Nat)
    (hc : col_bounds_ok c = true) :
    col_bounds_ok (updateColumn h alloc c s).1 = true := by
  rw [col_bounds_ok_iff] at hc ⊢
  obtain ⟨h30, h40, hlen, hents⟩ := hc
  rw [updateColumn]
  by_cases hd : c.drops ≤ -10000
  · rw [if_pos hd]
    have hp := reactivate_pres h c s
    refine ⟨?_, ?_, by rw [hp.2.1, hlen], by rw [hp.2.2.1]; exact hents⟩ <;>
      rcases reactivate_len h c s with hL | hL
    · rw [hL]; exact h30
    · exact hL.1
    · rw [hL]; exact h40
    · exact hL.2
  · rw [if_neg hd]
    by_cases hf : c.frozen = true
    · rw [if_pos hf]
      dsimp only
      apply flicker_drain_bounds
      have hp := unfreeze_check_pres h c s
      refine ⟨?_, ?_, by rw [hp.1, hlen], by rw [hp.2.1]; exact hents⟩ <;>
        rcases unfreeze_check_len h c s with hL | hL
      · rw [hL]; exact h30
      · exact hL.1
      · rw [hL]; exact h40
      · exact hL.2
    · rw [if_neg hf]
      dsimp only
      have ha := fade_start_pres c s
      have hbB : colBounds (fade_start c s).1 :=
        ⟨by rw [ha.2.2.2.1]; exact h30, by rw [ha.2.2.2.1]; exact h40,
         by rw [ha.2.2.1, hlen], by rw [ha.2.2.2.2.1]; exact hents⟩
      have hbC : colBounds (fade_continue h (fade_start c s).1 (fade_start c s).2).1 := by
        obtain ⟨b30, b40, blen, bents⟩ := hbB
        have hp := fade_continue_pres h (fade_start c s).1 (fade_start c s).2
        refine ⟨?_, ?_, by rw [hp.2.1, blen], by rw [hp.2.2.1]; exact bents⟩ <;>
          rcases fade_continue_len h (fade_start c s).1 (fade_start c s).2 with hL | hL
        · rw [hL]; exact b30
        · exact hL.1
        · rw [hL]; exact b40
        · exact hL.2
      have hbD : colBounds (advance (fade_continue h (fade_start c s).1 (fade_start c s).2).1
          (fade_continue h (fade_start c s).1 (fade_start c s).2).2).1 := by
        obtain ⟨b30, b40, blen, bents⟩ := hbC
        have hp := advance_pres (fade_continue h (fade_start c s).1 (fade_start c s).2).1
          (fade_continue h (fade_start c s).1 (fade_start c s).2).2
        refine ⟨by rw [hp.2.1]; exact b30, by rw [hp.2.1]; exact b40, ?_,
          by rw [hp.2.2.2.1]; exact bents⟩
        rw [advance]
        split
        · show ((shift_chars _ _).set 0 _).length = 40
          rw [List.length_set, shift_chars_length _ _ (by omega) (by omega)]
          exact blen
        · exact blen
      have hbZ : colBounds (freeze_check h alloc
          (advance (fade_continue h (fade_start c s).1 (fade_start c s).2).1
            (fade_continue h (fade_start c s).1 (fade_start c s).2).2).1
          (advance (fade_continue h (fade_start c s).1 (fade_start c s).2).1
            (fade_continue h (fade_start c s).1 (fade_start c s).2).2).2).1.1 := by
        obtain ⟨b30, b40, blen, bents⟩ := hbD
        have hp := freeze_check_chars h alloc
          (advance (fade_continue h (fade_start c s).1 (fade_start c s).2).1
            (fade_continue h (fade_start c s).1 (fade_start c s).2).2).1
          (advance (fade_continue h (fade_start c s).1 (fade_start c s).2).1
            (fade_continue h (fade_start c s).1 (fade_start c s).2).2).2
        refine ⟨by rw [hp.2]; exact b30, by rw [hp.2]; exact b40, by rw [hp.1, blen], ?_⟩
        rcases freeze_check_ftrails h alloc
          (advance (fade_continue h (fade_start c s).1 (fade_start c s).2).1
            (fade_continue h (fade_start c s).1 (fade_start c s).2).2).1
          (advance (fade_continue h (fade_start c s).1 (fade_start c s).2).1
            (fade_continue h (fade_start c s).1 (fade_start c s).2).2).2 with
          hcase | hcase | hcase
        · rw [hcase.1]
          exact bents
        · rw [hcase.1]
          exact bents
        · rw [hcase.1]
          intro e he
          rcases List.mem_append.mp he with hmem | hmem
          · exact bents e hmem
          · rcases List.mem_singleton.mp hmem with rfl
            show (List.take _ _).length ≤ 64
            rw [List.length_take]
            omega
      split
      · exact hbZ
      · exact flicker_drain_bounds _ _ hbZ

/-- C10: in every state reachable from `Matrix_init` by any sequence of
`Matrix_update` calls, every column's `trail_lengths` lies in `[30, 40]` with
its 40-slot character buffer intact and every frozen snapshot within the
64-entry buffer (so the freeze `memcpy` always fits); moreover the flicker
mutation's index `rng_int_range(1, trail_lengths)` lies in
`[1, trail_lengths)`, and the per-tick shift preserves the buffer length and
leaves every slot at index ≥ `trail_lengths` untouched. -/
theorem C10_access_bounds (w h cw : Int) (seed : Nat) (t0 : Int)
    (ticks : List (Int × Bool)) (m : Matrix)
    (hm : Matrix_init w h cw seed t0 = some m) :
    ((run_updates m ticks).cols.all col_bounds_ok = true) ∧
    (∀ (s len : Nat), 30 ≤ len →
      1 ≤ (rng_int_range s 1 (len : Int)).1 ∧
      (rng_int_range s 1 (len : Int)).1 < (len : Int)) ∧
    (∀ (l : List Nat) (len : Nat), 1 ≤ len → len ≤ l.length →
      (shift_chars l len).length = l.length) ∧
    (∀ (l : List Nat) (len j : Nat), 1 ≤ len → len ≤ l.length → len ≤ j →
      (shift_chars l len).getD j 0 = l.getD j 0) := by
  refine ⟨?_, ?_, ?_, ?_⟩
  · apply run_updates_all col_bounds_ok
    · intro h' alloc c s
      exact updateColumn_bounds_ok h' alloc c s
    · rw [Matrix_init_cols w h cw seed t0 m hm]
      apply init_cols_all
      intro height s
      rw [col_bounds_ok_iff]
      have h1 := init_col_len height s
      have h2 := (init_col_shape height s).2.1
      exact ⟨h1.1, h1.2.1, h1.2.2, by rw [h2]; intro e he; simp at he⟩
  · intro s len hlen
    have := rng_int_range_bounds s 1 (len : Int) (by omega)
    exact this
  · intro l len h1 h2
    exact shift_chars_length l len h1 h2
  · intro l len j h1 h2 hj
    have hlen1 : (List.take 1 l ++ List.take (len - 1) l).length = len := by
      simp only [List.length_append, List.length_take]
      omega
    simp only [shift_chars, List.getD_eq_getElem?_getD]
    rw [List.getElem?_append_right (by rw [hlen1]; omega)]
    rw [hlen1, List.getElem?_drop]
    have hx : len + (j - len) = j := by omega
    rw [hx]

/-- The concrete two-column engine `Matrix_init 40 40 20 1 0` used by the
C10 witness. -/
def m10 : Matrix := (Matrix_init 40 40 20 1 0).getD default

/-- Witness for C10 on the concrete engine after two ticks, plus concrete
instances of the flicker-index and shift bounds. -/
theorem C10_access_bounds_witness :
    (run_updates m10 [(100, true), (200, false)]).cols.all col_bounds_ok = true ∧
    (1 ≤ (rng_int_range 3 1 30).1 ∧ (rng_int_range 3 1 30).1 < 30) ∧
    (shift_chars (List.replicate 40 48) 30).length = 40 ∧
    (shift_chars (List.replicate 40 48) 30).getD 35 0 =
      (List.replicate 40 48).getD 35 0 := by
  have ht := C10_access_bounds 40 40 20 1 0 [(100, true), (200, false)] m10 (by rfl)
  refine ⟨ht.1, ht.2.1 3 30 (by norm_num), ?_, ?_⟩
  · rw [ht.2.2.1 (List.replicate 40 48) 30 (by norm_num) (by simp)]
    simp
  · exact ht.2.2.2 (List.replicate 40 48) 30 35 (by norm_num) (by simp) (by norm_num)

end MatrixRain
